import Mathlib

/-!
Verification of the time-driven scenario/event simulation core of the
`earth-3d-project` repository: the game clock (`GameLoop`), the
`ScenarioEngine`, the `ResourceManager`, the `EventBus`, and the
stability-effect handler wired in `initThreeScene`.

JavaScript numbers are modelled as rationals (`ℚ`); all quantities the
claims touch stay far from floating-point extremes, and the source
arithmetic on them is exact on rationals.  `Math.floor` is `Int.floor`,
the JS `%` operator (truncated remainder) is modelled explicitly.
-/

namespace Earth3D

/-! ### Game clock (`GameLoop`, src/rendering/CameraController.ts) -/

/-- `GameTime` record from `src/game/types/GameState.ts`. -/
structure GameTime where
  elapsedMs : ℚ
  day : ℤ
  hour : ℤ
  minute : ℤ
deriving Repr, DecidableEq

/-- `MS_PER_GAME_MINUTE` constant. -/
def MS_PER_GAME_MINUTE : ℚ := 1000

/-- `MS_PER_GAME_HOUR = MS_PER_GAME_MINUTE * 60`. -/
def MS_PER_GAME_HOUR : ℚ := MS_PER_GAME_MINUTE * 60

/-- `MINUTES_PER_HOUR` constant. -/
def MINUTES_PER_HOUR : ℚ := 60

/-- `HOURS_PER_DAY` constant. -/
def HOURS_PER_DAY : ℤ := 24

/-- JS truncation toward zero (the implicit conversion in the JS `%`
operator on numbers). -/
def jsTrunc (q : ℚ) : ℤ := if 0 ≤ q then ⌊q⌋ else ⌈q⌉

/-- The JS `%` operator on numbers: `x % y = x - y * trunc (x / y)`. -/
def jsFmod (x y : ℚ) : ℚ := x - y * (jsTrunc (x / y))

/-- The JS `%` operator restricted to integer values (as produced by
`Math.floor`): truncated remainder. -/
def jsIntMod (a b : ℤ) : ℤ := Int.tmod a b

/-- Notifications a `GameLoop` time update can publish on the event bus. -/
inductive GameEmit
  | hourChanged (time : GameTime) (previousHour : ℤ)
  | dayChanged (time : GameTime) (previousDay : ℤ)
  | timeRestored (time : GameTime)
deriving Repr, DecidableEq

/-- `GameLoop.updateGameTime` (CameraController.ts lines 623-654): add the
delta to `elapsedMs`, recompute day/hour/minute, and emit
`game:hourChanged` / `game:dayChanged` when those fields changed. -/
def updateGameTime (deltaMs : ℚ) (gt : GameTime) : GameTime × List GameEmit :=
  let previousHour := gt.hour
  let previousDay := gt.day
  let elapsed := gt.elapsedMs + deltaMs
  let totalGameMinutes : ℚ := elapsed / MS_PER_GAME_HOUR * MINUTES_PER_HOUR
  let totalGameHours : ℤ := ⌊totalGameMinutes / MINUTES_PER_HOUR⌋
  let minute : ℤ := ⌊jsFmod totalGameMinutes MINUTES_PER_HOUR⌋
  let hour : ℤ := jsIntMod totalGameHours HOURS_PER_DAY
  let day : ℤ := ⌊(totalGameHours : ℚ) / (HOURS_PER_DAY : ℚ)⌋ + 1
  let gt' : GameTime := ⟨elapsed, day, hour, minute⟩
  (gt',
    (if hour ≠ previousHour then [GameEmit.hourChanged gt' previousHour] else [])
      ++ (if day ≠ previousDay then [GameEmit.dayChanged gt' previousDay] else []))

/-- The `gameTime` value the `GameLoop` constructor installs. -/
def initialGameTime : GameTime := ⟨0, 1, 0, 0⟩

/-- `GameLoop.restoreTime` (CameraController.ts lines 706-709): overwrite
the whole `gameTime` record and publish only `game:timeRestored`. -/
def restoreTime (time : GameTime) (_pre : GameTime) : GameTime × List GameEmit :=
  ({ time with }, [GameEmit.timeRestored { time with }])

/-- The claims' pure projection of `elapsedMs` into day/hour/minute
(the documented formula of spec §3/§8). -/
def timeProjected (gt : GameTime) : Prop :=
  gt.minute = ⌊gt.elapsedMs / MS_PER_GAME_HOUR * 60⌋ % 60 ∧
    gt.hour = ⌊gt.elapsedMs / MS_PER_GAME_HOUR⌋ % 24 ∧
    gt.day = ⌊(⌊gt.elapsedMs / MS_PER_GAME_HOUR⌋ : ℚ) / 24⌋ + 1

instance (gt : GameTime) : Decidable (timeProjected gt) := by
  unfold timeProjected; infer_instance

/-- Elapsed-time trace of a sequence of tick updates. -/
def tickTrace (deltas : List ℚ) : List GameTime :=
  deltas.scanl (fun gt d => (updateGameTime d gt).1) initialGameTime

/-! ### ResourceManager (src/game/ResourceManager.ts) -/

/-- `Resource` record (src/game/types, fleet resource definitions); the
display-only fields (`displayName`, `icon`, `color`) are never read by the
game logic and are omitted. -/
structure Resource where
  current : ℚ
  max : ℚ
  regenPerHour : ℚ
deriving Repr, DecidableEq

/-- `FleetResources`: the four named fleet resources. -/
structure FleetResources where
  energy : Resource
  kineticRods : Resource
  drones : Resource
  personnel : Resource
deriving Repr, DecidableEq

/-- `DEFAULT_FLEET_RESOURCES` (numeric fields). -/
def DEFAULT_FLEET_RESOURCES : FleetResources :=
  ⟨⟨1000, 1000, 10⟩, ⟨50, 100, 1/2⟩, ⟨200, 500, 2⟩, ⟨1000, 2000, 1⟩⟩

/-- `ResourceCost`: each field optional. -/
structure ResourceCost where
  energy : Option ℚ := none
  kineticRods : Option ℚ := none
  drones : Option ℚ := none
  personnel : Option ℚ := none
deriving Repr, DecidableEq

/-- One key of the `canAfford` loop: a requested type passes unless the
amount is present, truthy (`> 0`), and exceeds the current stock. -/
def costOk (r : Resource) : Option ℚ → Bool
  | none => true
  | some required => if 0 < required then decide (required ≤ r.current) else true

/-- `ResourceManager.canAfford` (ResourceManager.ts lines 87-103), boolean
part of the `AffordabilityResult`. -/
def canAfford (res : FleetResources) (cost : ResourceCost) : Bool :=
  costOk res.energy cost.energy && costOk res.kineticRods cost.kineticRods
    && costOk res.drones cost.drones && costOk res.personnel cost.personnel

/-- One key of the `spend` debit loop: present, truthy amounts are
subtracted from `current`. -/
def debitRes (r : Resource) : Option ℚ → Resource
  | none => r
  | some amount => if 0 < amount then { r with current := r.current - amount } else r

/-- `ResourceManager.spend` (ResourceManager.ts lines 108-145): check
affordability across all requested types first, then either debit every
requested type and return `true`, or mutate nothing and return `false`. -/
def spend (res : FleetResources) (cost : ResourceCost) : FleetResources × Bool :=
  if canAfford res cost then
    (⟨debitRes res.energy cost.energy, debitRes res.kineticRods cost.kineticRods,
      debitRes res.drones cost.drones, debitRes res.personnel cost.personnel⟩, true)
  else (res, false)

/-- One resource of `ResourceManager.onHourChanged` (lines 51-82): if it
regenerates and is below max, raise `current` by `regenPerHour` clamped to
`max` (the inner `delta > 0` check is implied by the outer guard). -/
def regenResource (r : Resource) : Resource :=
  if 0 < r.regenPerHour ∧ r.current < r.max then
    { r with current := min (r.current + r.regenPerHour) r.max }
  else r

/-- `ResourceManager.onHourChanged` applied to the whole fleet. -/
def onHourChangedFleet (res : FleetResources) : FleetResources :=
  ⟨regenResource res.energy, regenResource res.kineticRods,
    regenResource res.drones, regenResource res.personnel⟩

/-- One `GameLoop.tick`'s effect on the fleet resources: the
`ResourceManager` regenerates once per `game:hourChanged` notification the
tick's `updateGameTime` publishes. -/
def gameTick (deltaMs : ℚ) (gt : GameTime) (res : FleetResources) :
    GameTime × FleetResources × List GameEmit :=
  let r := updateGameTime deltaMs gt
  (r.1,
    r.2.foldl
      (fun acc e => match e with
        | GameEmit.hourChanged _ _ => onHourChangedFleet acc
        | _ => acc) res,
    r.2)

/-- Number of `game:hourChanged` notifications in an emission list. -/
def hourChangedCount (emits : List GameEmit) : ℕ :=
  (emits.filter fun e => match e with
    | GameEmit.hourChanged _ _ => true
    | _ => false).length

/-! ### Stability-effect handler (src/world/GeoUtils.ts lines 1049-1051)

The `scenario:eventTriggered` handler in `initThreeScene`:
`if (event.effect.stabilityChange) location.stability =
Math.max(0, Math.min(100, location.stability + stabilityChange))`
(the JS truthiness test skips an absent or zero delta). -/

/-- Apply an optional `stabilityChange` delta to a location's stability. -/
def applyStabilityChange (stability : ℚ) : Option ℚ → ℚ
  | none => stability
  | some c => if c = 0 then stability else max 0 (min 100 (stability + c))

/-! ### EventBus (src/core/EventBus.ts)

The listener registry is a JS `Map` from event name to a JS `Set` of
callbacks: an insertion-ordered association list whose values are
insertion-ordered duplicate-free callback lists.  Callback instances are
identified by numeric tokens. -/

/-- JS `Set.add`: no-op when the element is present, else append. -/
def setAdd (s : List ℕ) (c : ℕ) : List ℕ := if c ∈ s then s else s ++ [c]

/-- JS `Map.get` on the listener registry. -/
def busGet : List (String × List ℕ) → String → Option (List ℕ)
  | [], _ => none
  | (k, s) :: rest, ev => if k = ev then some s else busGet rest ev

/-- `EventBus.on` (EventBus.ts lines 29-37): create the event's callback
set if absent (JS `Map.set` appends new keys at the end), then `Set.add`
the callback. -/
def busOn : List (String × List ℕ) → String → ℕ → List (String × List ℕ)
  | [], ev, c => [(ev, setAdd [] c)]
  | (k, s) :: rest, ev, c =>
    if k = ev then (k, setAdd s c) :: rest else (k, s) :: busOn rest ev c

/-- The callbacks `EventBus.emit` invokes, in order: the event's callback
set iterated in insertion order (`forEach`). -/
def emitTrace (bus : List (String × List ℕ)) (ev : String) : List ℕ :=
  (busGet bus ev).getD []

/-- `EventBus.emit` (EventBus.ts lines 55-66) dispatch semantics over
handlers modelled as state transformers that may throw: each callback runs
inside `try/catch`; a thrown error is logged (collected) and the loop
continues with the next callback.  The returned pair (final state,
error log) shows no exception reaches the caller. -/
def emitRun {σ ε : Type} : List (σ → Except ε σ) → σ → σ × List ε
  | [], s => (s, [])
  | h :: hs, s =>
    match h s with
    | Except.ok s' => emitRun hs s'
    | Except.error e =>
      let r := emitRun hs s
      (r.1, e :: r.2)

/-- Specification-side trace: the outcome of every registered handler, in
registration order, each applied to the state left by its predecessors. -/
def handlerResults {σ ε : Type} : List (σ → Except ε σ) → σ → List (Except ε σ)
  | [], _ => []
  | h :: hs, s =>
    match h s with
    | Except.ok s' => Except.ok s' :: handlerResults hs s'
    | Except.error e => Except.error e :: handlerResults hs s

/-! ### ScenarioEngine (src/game ScenarioEngine module) -/

/-- `ScenarioEvent` authored record; the engine reads only `id` and
`time` — the narrative/effect payload fields (`type`, `locationId`,
`effect`, messages, `focusCamera`, `importance`) are opaque to it and are
omitted here (the stability effect is verified separately via
`applyStabilityChange`). -/
structure ScenarioEvent where
  id : String
  time : ℚ
deriving Repr, DecidableEq

/-- Ascending scheduled-time order on events. -/
def eventLE (a b : ScenarioEvent) : Prop := a.time ≤ b.time

instance : DecidableRel eventLE := fun a b => inferInstanceAs (Decidable (a.time ≤ b.time))

instance : IsTotal ScenarioEvent eventLE := ⟨fun a b => le_total a.time b.time⟩

instance : IsTrans ScenarioEvent eventLE := ⟨fun _ _ _ h1 h2 => le_trans h1 h2⟩

/-- `[...scenario.events].sort((a, b) => a.time - b.time)`:
`Array.prototype.sort` is stable, so this is a stable sort by time
(insertion sort is one). -/
def sortEventsByTime (l : List ScenarioEvent) : List ScenarioEvent :=
  l.insertionSort eventLE

/-- `Scenario` record (engine-relevant fields). -/
structure Scenario where
  id : String
  name : String
  events : List ScenarioEvent
deriving Repr, DecidableEq

/-- `ScenarioState`; the JS `Set` of completed ids is an insertion-ordered
duplicate-free list. -/
structure ScenarioState where
  scenarioId : String
  currentTime : ℚ
  completedEventIds : List String
  isComplete : Bool
deriving Repr, DecidableEq

/-- The mutable fields of the `ScenarioEngine` class. -/
structure ScenarioEngine where
  scenario : Option Scenario
  state : Option ScenarioState
  pendingEvents : List ScenarioEvent
deriving Repr, DecidableEq

/-- Notifications the engine publishes. -/
inductive ScenarioEmit
  | scenarioLoaded (scenarioId name : String) (totalEvents : ℕ)
  | eventTriggered (event : ScenarioEvent) (scenarioTime : ℚ)
  | scenarioComplete (scenarioId : String) (totalEvents : ℕ) (duration : ℚ)
deriving Repr, DecidableEq

/-- Engine state as constructed (no scenario loaded yet). -/
def emptyEngine : ScenarioEngine := ⟨none, none, []⟩

/-- `ScenarioEngine.loadScenario` (lines 46-65). -/
def loadScenario (scenario : Scenario) (_eng : ScenarioEngine) :
    ScenarioEngine × List ScenarioEmit :=
  (⟨some scenario, some ⟨scenario.id, 0, [], false⟩, sortEventsByTime scenario.events⟩,
    [ScenarioEmit.scenarioLoaded scenario.id scenario.name scenario.events.length])

/-- `gameTimeToScenarioTime` (lines 102-105). -/
def gameTimeToScenarioTime (time : GameTime) : ℚ :=
  ((time.day - 1 : ℤ) : ℚ) * 24 + (time.hour : ℚ) + (time.minute : ℚ) / 60

/-- JS `Set.add` on the completed-id set. -/
def idSetAdd (s : List String) (i : String) : List String :=
  if i ∈ s then s else s ++ [i]

/-- The `while` loop of `handleTick` (lines 78-91) together with the
bookkeeping of `triggerEvent` (lines 110-126): shift ready events off the
sorted pending list, mark them completed, and emit
`scenario:eventTriggered` for each. -/
def triggerLoop (scenarioTime : ℚ) :
    List ScenarioEvent → List String → List ScenarioEvent × List String × List ScenarioEmit
  | [], completed => ([], completed, [])
  | e :: rest, completed =>
    if e.time ≤ scenarioTime then
      let r := triggerLoop scenarioTime rest (idSetAdd completed e.id)
      (r.1, r.2.1, ScenarioEmit.eventTriggered e scenarioTime :: r.2.2)
    else (e :: rest, completed, [])

/-- `ScenarioEngine.handleTick` (lines 70-97), including
`completeScenario` (lines 131-145). -/
def handleTick (time : GameTime) (eng : ScenarioEngine) :
    ScenarioEngine × List ScenarioEmit :=
  match eng.scenario, eng.state with
  | some scenario, some st =>
    if st.isComplete then (eng, [])
    else
      let scenarioTime := gameTimeToScenarioTime time
      let r := triggerLoop scenarioTime eng.pendingEvents st.completedEventIds
      let st1 : ScenarioState :=
        { st with currentTime := scenarioTime, completedEventIds := r.2.1 }
      if r.1.isEmpty then
        (⟨some scenario, some { st1 with isComplete := true }, r.1⟩,
          r.2.2 ++ [ScenarioEmit.scenarioComplete scenario.id scenario.events.length
            st1.currentTime])
      else (⟨some scenario, some st1, r.1⟩, r.2.2)
  | _, _ => (eng, [])

/-- Run a sequence of ticks, concatenating the emission stream. -/
def runTicks (eng : ScenarioEngine) : List GameTime → ScenarioEngine × List ScenarioEmit
  | [] => (eng, [])
  | t :: ts =>
    let r := handleTick t eng
    let r' := runTicks r.1 ts
    (r'.1, r.2 ++ r'.2)

/-- The events carried by the `scenario:eventTriggered` notifications of an
emission stream, in emission order. -/
def triggeredEvents (emits : List ScenarioEmit) : List ScenarioEvent :=
  emits.filterMap fun e => match e with
    | ScenarioEmit.eventTriggered ev _ => some ev
    | _ => none

/-- Number of `scenario:complete` notifications in an emission stream. -/
def completeCount (emits : List ScenarioEmit) : ℕ :=
  (emits.filter fun e => match e with
    | ScenarioEmit.scenarioComplete _ _ _ => true
    | _ => false).length

/-! ### Specification-side definitions used by the claim statements -/

/-- Specification reading of affordability for one requested type: a
present, positive requested amount must not exceed the current stock. -/
def coversReq (r : Resource) : Option ℚ → Prop
  | none => True
  | some a => 0 < a → a ≤ r.current

instance (r : Resource) : (c : Option ℚ) → Decidable (coversReq r c)
  | none => isTrue trivial
  | some a => inferInstanceAs (Decidable (0 < a → a ≤ r.current))

/-- Specification reading of `canAfford`: every requested resource type can
cover its requested amount. -/
def Covers (res : FleetResources) (cost : ResourceCost) : Prop :=
  coversReq res.energy cost.energy ∧ coversReq res.kineticRods cost.kineticRods ∧
    coversReq res.drones cost.drones ∧ coversReq res.personnel cost.personnel

instance (res : FleetResources) (cost : ResourceCost) : Decidable (Covers res cost) := by
  unfold Covers; infer_instance

/-- The effective debit a requested amount causes (absent and non-positive
amounts are skipped by the JS truthiness/positivity guards). -/
def posPart : Option ℚ → ℚ
  | none => 0
  | some a => if 0 < a then a else 0

/-- A fleet whose energy is depleted (for the regeneration witnesses). -/
def depletedFleet : FleetResources :=
  { DEFAULT_FLEET_RESOURCES with energy := ⟨0, 1000, 10⟩ }

/-- A fleet holding 300 energy (the C4 spec example). -/
def fleet300 : FleetResources :=
  { DEFAULT_FLEET_RESOURCES with energy := ⟨300, 1000, 10⟩ }

/-- A handler that always throws. -/
def hBoom : ℕ → Except String ℕ := fun _ => Except.error "boom"

/-- A handler that increments the shared state. -/
def hInc : ℕ → Except String ℕ := fun n => Except.ok (n + 1)

/-- The four-event scenario of the C1 spec example: events at scenario
times [0, 1, 1, 5], the two time-1 events in authored order. -/
def scenario4 : Scenario :=
  ⟨"s4", "Four events", [⟨"e0", 0⟩, ⟨"e1a", 1⟩, ⟨"e1b", 1⟩, ⟨"e5", 5⟩]⟩

/-- A scenario with an empty event list (the C10 case). -/
def scenario0 : Scenario := ⟨"s0", "Empty", []⟩

/-- A game time projecting to scenario-hour 1. -/
def gtHour1 : GameTime := ⟨60000, 1, 1, 0⟩

/-- A game time projecting to scenario-hour 6 (one jump past 5). -/
def gtHour6 : GameTime := ⟨360000, 1, 6, 0⟩

/-- A game time projecting to scenario-hour 7. -/
def gtHour7 : GameTime := ⟨420000, 1, 7, 0⟩

/-! ## Helper lemmas -/

lemma jsTrunc_of_nonneg {q : ℚ} (h : 0 ≤ q) : jsTrunc q = ⌊q⌋ := by
  simp [jsTrunc, h]

/-- Floor of a division by a positive natural agrees with integer
(euclidean) division of the floor. -/
lemma floor_div_natq (x : ℚ) (n : ℕ) (hn : 0 < n) :
    ⌊x / (n : ℚ)⌋ = ⌊x⌋ / (n : ℤ) := by
  have hnq : (0 : ℚ) < (n : ℚ) := by exact_mod_cast hn
  have hnz : (0 : ℤ) < (n : ℤ) := by exact_mod_cast hn
  apply le_antisymm
  · rw [Int.le_ediv_iff_mul_le hnz, Int.le_floor]
    push_cast
    have h1 : (⌊x / (n : ℚ)⌋ : ℚ) ≤ x / (n : ℚ) := Int.floor_le _
    calc (⌊x / (n : ℚ)⌋ : ℚ) * (n : ℚ) ≤ x / (n : ℚ) * (n : ℚ) :=
          mul_le_mul_of_nonneg_right h1 hnq.le
      _ = x := div_mul_cancel₀ x hnq.ne'
  · rw [Int.le_floor, le_div_iff₀ hnq]
    have h1 : (⌊x⌋ / (n : ℤ)) * (n : ℤ) ≤ ⌊x⌋ := Int.ediv_mul_le _ hnz.ne'
    calc ((⌊x⌋ / (n : ℤ) : ℤ) : ℚ) * (n : ℚ) = (((⌊x⌋ / (n : ℤ)) * (n : ℤ) : ℤ) : ℚ) := by
          push_cast; ring
      _ ≤ (⌊x⌋ : ℚ) := by exact_mod_cast Int.cast_le.mpr h1
      _ ≤ x := Int.floor_le x

lemma tmod_of_nonneg {a b : ℤ} (ha : 0 ≤ a) (hb : 0 ≤ b) :
    Int.tmod a b = a % b :=
  Int.tmod_eq_emod ha hb

/-- The minute computation of `updateGameTime`: flooring the JS remainder
equals the integer remainder of the floor, for non-negative input. -/
lemma floor_jsFmod_sixty {tm : ℚ} (h : 0 ≤ tm) :
    ⌊jsFmod tm 60⌋ = ⌊tm⌋ % 60 := by
  have h60 : (0 : ℚ) < 60 := by norm_num
  have hq : 0 ≤ tm / 60 := div_nonneg h h60.le
  rw [jsFmod, jsTrunc_of_nonneg hq]
  have hfd : ⌊tm / (60 : ℚ)⌋ = ⌊tm⌋ / (60 : ℤ) := by
    have := floor_div_natq tm 60 (by norm_num)
    simpa using this
  have hcast : (60 : ℚ) * (⌊tm / (60 : ℚ)⌋ : ℚ) = ((60 * ⌊tm / (60 : ℚ)⌋ : ℤ) : ℚ) := by
    push_cast; ring
  rw [hcast, Int.floor_sub_int, hfd, Int.emod_def]

lemma costOk_iff (r : Resource) (c : Option ℚ) : costOk r c = true ↔ coversReq r c := by
  cases c with
  | none => simp [costOk, coversReq]
  | some a =>
    by_cases h : 0 < a <;> simp [costOk, coversReq, h]

lemma canAfford_iff (res : FleetResources) (cost : ResourceCost) :
    canAfford res cost = true ↔ Covers res cost := by
  simp [canAfford, Covers, Bool.and_eq_true, costOk_iff]
  tauto

lemma debitRes_eq (r : Resource) (c : Option ℚ) :
    debitRes r c = { r with current := r.current - posPart c } := by
  cases c with
  | none => simp [debitRes, posPart]
  | some a =>
    by_cases h : 0 < a <;> simp [debitRes, posPart, h]

lemma spend_of_covers (res : FleetResources) (cost : ResourceCost)
    (h : Covers res cost) :
    spend res cost =
      (⟨{ res.energy with current := res.energy.current - posPart cost.energy },
        { res.kineticRods with
          current := res.kineticRods.current - posPart cost.kineticRods },
        { res.drones with current := res.drones.current - posPart cost.drones },
        { res.personnel with
          current := res.personnel.current - posPart cost.personnel }⟩, true) := by
  rw [spend, if_pos ((canAfford_iff res cost).mpr h),
    debitRes_eq, debitRes_eq, debitRes_eq, debitRes_eq]

lemma spend_of_not_covers (res : FleetResources) (cost : ResourceCost)
    (h : ¬Covers res cost) :
    spend res cost = (res, false) := by
  rw [spend, if_neg]
  simpa [canAfford_iff] using h

lemma applyStab_bounds (s : ℚ) (c : Option ℚ) (h0 : 0 ≤ s) (h100 : s ≤ 100) :
    0 ≤ applyStabilityChange s c ∧ applyStabilityChange s c ≤ 100 := by
  cases c with
  | none => exact ⟨h0, h100⟩
  | some a =>
    by_cases h : a = 0
    · simpa [applyStabilityChange, h] using ⟨h0, h100⟩
    · simp only [applyStabilityChange, if_neg h]
      exact ⟨le_max_left 0 _, max_le (by norm_num) (min_le_left _ _)⟩

lemma foldStab_bounds :
    ∀ (cs : List (Option ℚ)) (s : ℚ), 0 ≤ s → s ≤ 100 →
      0 ≤ cs.foldl applyStabilityChange s ∧ cs.foldl applyStabilityChange s ≤ 100
  | [], _, h0, h100 => ⟨h0, h100⟩
  | c :: cs, s, h0, h100 => by
    rw [List.foldl_cons]
    obtain ⟨a, b⟩ := applyStab_bounds s c h0 h100
    exact foldStab_bounds cs _ a b

/-! ## Claim theorems -/

/-- C4: `ResourceManager.spend` is all-or-nothing: when every requested
resource type covers its requested amount, each is debited by exactly that
amount and `spend` succeeds; when any single requested type is
insufficient, `spend` fails and every resource is left unchanged — in
particular spending 500 energy at stock 300 fails and changes nothing, and
`{energy: 100, drones: 99999}` with insufficient drones changes nothing
even though the energy alone would be affordable. -/
theorem spend_all_or_nothing (res : FleetResources) (cost : ResourceCost) :
    (canAfford res cost = true ↔ Covers res cost) ∧
      (Covers res cost →
        spend res cost =
          (⟨{ res.energy with current := res.energy.current - posPart cost.energy },
            { res.kineticRods with
              current := res.kineticRods.current - posPart cost.kineticRods },
            { res.drones with current := res.drones.current - posPart cost.drones },
            { res.personnel with
              current := res.personnel.current - posPart cost.personnel }⟩, true)) ∧
      (¬Covers res cost → spend res cost = (res, false)) ∧
      spend fleet300 ⟨some 500, none, none, none⟩ = (fleet300, false) ∧
      spend DEFAULT_FLEET_RESOURCES ⟨some 100, none, some 99999, none⟩ =
        (DEFAULT_FLEET_RESOURCES, false) := by
  refine ⟨canAfford_iff res cost, spend_of_covers res cost, spend_of_not_covers res cost,
    spend_of_not_covers _ _ ?_, spend_of_not_covers _ _ ?_⟩
  · norm_num [Covers, coversReq, fleet300, DEFAULT_FLEET_RESOURCES]
  · norm_num [Covers, coversReq, DEFAULT_FLEET_RESOURCES]

/-- Witness for C4 at a concrete input: the default fleet covers a cost of
100 energy and the debit is exact. -/
theorem spend_all_or_nothing_witness :
    Covers DEFAULT_FLEET_RESOURCES ⟨some 100, none, none, none⟩ ∧
      spend DEFAULT_FLEET_RESOURCES ⟨some 100, none, none, none⟩ =
        (⟨⟨900, 1000, 10⟩, ⟨50, 100, 1/2⟩, ⟨200, 500, 2⟩, ⟨1000, 2000, 1⟩⟩, true) :=
  ⟨by norm_num [Covers, coversReq, DEFAULT_FLEET_RESOURCES], by
    have h := (spend_all_or_nothing DEFAULT_FLEET_RESOURCES
      ⟨some 100, none, none, none⟩).2.1
      (by norm_num [Covers, coversReq, DEFAULT_FLEET_RESOURCES])
    rw [h]
    norm_num [DEFAULT_FLEET_RESOURCES, posPart]⟩

/-- C5: a triggered event's `stabilityChange` effect adds the delta and
clamps into [0,100]: from stability within range the result is exactly
`max 0 (min 100 (s + c))`, stays in range, a -150 delta at 100 yields 0,
stays 0 on repeat, and any compounding sequence of effects keeps stability
inside [0,100]. -/
theorem stabilityChange_clamped (s c : ℚ) (h0 : 0 ≤ s) (h100 : s ≤ 100) :
    applyStabilityChange s (some c) = max 0 (min 100 (s + c)) ∧
      (0 ≤ applyStabilityChange s (some c) ∧ applyStabilityChange s (some c) ≤ 100) ∧
      applyStabilityChange 100 (some (-150)) = 0 ∧
      applyStabilityChange 0 (some (-150)) = 0 ∧
      ∀ cs : List (Option ℚ),
        0 ≤ cs.foldl applyStabilityChange s ∧ cs.foldl applyStabilityChange s ≤ 100 := by
  refine ⟨?_, applyStab_bounds s (some c) h0 h100, by norm_num [applyStabilityChange],
    by norm_num [applyStabilityChange], fun cs => foldStab_bounds cs s h0 h100⟩
  by_cases hc : c = 0
  · simp [applyStabilityChange, hc, min_eq_right h100, max_eq_right h0]
  · simp [applyStabilityChange, hc]

/-- Witness for C5 at the spec's concrete input: stability 100, delta
-150, clamped result 0. -/
theorem stabilityChange_clamped_witness :
    (0 : ℚ) ≤ 100 ∧ (100 : ℚ) ≤ 100 ∧
      applyStabilityChange 100 (some (-150)) = max 0 (min 100 (100 + (-150))) :=
  ⟨by norm_num, le_refl 100,
    (stabilityChange_clamped 100 (-150) (by norm_num) (le_refl 100)).1⟩

/-- C8: `GameLoop.restoreTime` overwrites the game time wholesale and
publishes only `game:timeRestored` — never `game:hourChanged` or
`game:dayChanged`, whatever the pre-restore time was. -/
theorem restoreTime_silent (pre t : GameTime) :
    restoreTime t pre = (t, [GameEmit.timeRestored t]) ∧
      ∀ e ∈ (restoreTime t pre).2,
        (∀ gt ph, e ≠ GameEmit.hourChanged gt ph) ∧
          ∀ gt pd, e ≠ GameEmit.dayChanged gt pd := by
  refine ⟨rfl, ?_⟩
  intro e he
  simp only [restoreTime, List.mem_singleton] at he
  subst he
  exact ⟨fun _ _ => by simp, fun _ _ => by simp⟩

/-- Witness for C8: restoring a time whose hour and day differ from the
pre-restore time still publishes only `game:timeRestored`. -/
theorem restoreTime_silent_witness :
    restoreTime ⟨9000000, 7, 6, 0⟩ ⟨0, 1, 0, 0⟩
      = (⟨9000000, 7, 6, 0⟩, [GameEmit.timeRestored ⟨9000000, 7, 6, 0⟩]) :=
  (restoreTime_silent ⟨0, 1, 0, 0⟩ ⟨9000000, 7, 6, 0⟩).1

lemma handlerResults_length {σ ε : Type} :
    ∀ (hs : List (σ → Except ε σ)) (s : σ),
      (handlerResults hs s).length = hs.length
  | [], _ => rfl
  | h :: hs, s => by
    rw [handlerResults]
    cases h s <;> simp [handlerResults_length hs]

lemma emitRun_log_eq {σ ε : Type} :
    ∀ (hs : List (σ → Except ε σ)) (s : σ),
      (emitRun hs s).2 = (handlerResults hs s).filterMap fun r =>
        match r with
        | Except.error err => some err
        | Except.ok _ => none
  | [], _ => rfl
  | h :: hs, s => by
    rw [emitRun, handlerResults]
    cases h s <;> simp [emitRun_log_eq hs]

/-- C7: an `EventBus.emit` dispatch catches a handler's error: the error is
logged, every remaining handler for the event still runs (contributing the
same final state and log entries as if the failing handler were absent),
and `emit` returns normally — no exception reaches the caller.  Every
registered handler is invoked (the outcome trace covers all of them) and
the log is exactly the errors of that trace. -/
theorem emit_error_isolated {σ ε : Type} (h : σ → Except ε σ)
    (hs : List (σ → Except ε σ)) (s : σ) (e : ε) (herr : h s = Except.error e) :
    emitRun (h :: hs) s = ((emitRun hs s).1, e :: (emitRun hs s).2) ∧
      (∀ (hs' : List (σ → Except ε σ)) (s' : σ),
        (handlerResults hs' s').length = hs'.length) ∧
      ∀ (hs' : List (σ → Except ε σ)) (s' : σ),
        (emitRun hs' s').2 = (handlerResults hs' s').filterMap fun r =>
          match r with
          | Except.error err => some err
          | Except.ok _ => none := by
  refine ⟨?_, handlerResults_length, emitRun_log_eq⟩
  rw [emitRun, herr]

/-- Witness for C7: a concrete throwing handler followed by a normal one. -/
theorem emit_error_isolated_witness :
    hBoom 0 = Except.error "boom" ∧
      emitRun [hBoom, hInc] 0 = ((emitRun [hInc] 0).1, "boom" :: (emitRun [hInc] 0).2) :=
  ⟨rfl, (emit_error_isolated hBoom [hInc] 0 "boom" rfl).1⟩

lemma setAdd_mem (s : List ℕ) (c : ℕ) : c ∈ setAdd s c := by
  by_cases h : c ∈ s <;> simp [setAdd, h]

lemma setAdd_idem (s : List ℕ) (c : ℕ) : setAdd (setAdd s c) c = setAdd s c := by
  rw [show setAdd (setAdd s c) c
      = if c ∈ setAdd s c then setAdd s c else setAdd s c ++ [c] from rfl,
    if_pos (setAdd_mem s c)]

lemma setAdd_count_one {s : List ℕ} {c : ℕ} (h : s.Nodup) :
    (setAdd s c).count c = 1 := by
  by_cases hc : c ∈ s
  · rw [setAdd, if_pos hc]
    exact List.count_eq_one_of_mem h hc
  · rw [setAdd, if_neg hc]
    simp [List.count_append, List.count_eq_zero_of_not_mem hc]

lemma busGet_busOn :
    ∀ (bus : List (String × List ℕ)) (ev : String) (c : ℕ),
      busGet (busOn bus ev c) ev = some (setAdd ((busGet bus ev).getD []) c)
  | [], ev, c => by simp [busOn, busGet]
  | (k, s) :: rest, ev, c => by
    by_cases h : k = ev
    · simp [busOn, busGet, h]
    · simp [busOn, busGet, h, busGet_busOn rest ev c]

lemma busOn_idem :
    ∀ (bus : List (String × List ℕ)) (ev : String) (c : ℕ),
      busOn (busOn bus ev c) ev c = busOn bus ev c
  | [], ev, c => by simp [busOn, setAdd_idem]
  | (k, s) :: rest, ev, c => by
    by_cases h : k = ev
    · simp [busOn, h, setAdd_idem]
    · simp [busOn, h, busOn_idem rest ev c]

/-- C9: `EventBus.on` is idempotent per (event, handler instance) pair:
subscribing the same handler twice to the same event leaves the registry
exactly as subscribing it once, and a subsequent `emit` of that event
invokes the handler exactly once. -/
theorem subscribe_idempotent (bus : List (String × List ℕ)) (ev : String) (c : ℕ)
    (hnodup : ((busGet bus ev).getD []).Nodup) :
    busOn (busOn bus ev c) ev c = busOn bus ev c ∧
      (emitTrace (busOn bus ev c) ev).count c = 1 ∧
      (emitTrace (busOn (busOn bus ev c) ev c) ev).count c = 1 := by
  have hb := busGet_busOn bus ev c
  have hcount : (emitTrace (busOn bus ev c) ev).count c = 1 := by
    rw [emitTrace, hb]
    exact setAdd_count_one hnodup
  exact ⟨busOn_idem bus ev c, hcount, by rw [busOn_idem]; exact hcount⟩

/-- Witness for C9 on a concrete registry. -/
theorem subscribe_idempotent_witness :
    (((busGet [("camera:zoom", [5])] "marker:hover").getD []).Nodup) ∧
      (emitTrace (busOn [("camera:zoom", [5])] "marker:hover" 7) "marker:hover").count 7
        = 1 :=
  ⟨by simp [busGet],
    (subscribe_idempotent [("camera:zoom", [5])] "marker:hover" 7 (by simp [busGet])).2.1⟩

lemma updateGameTime_fst (d : ℚ) (gt : GameTime) :
    (updateGameTime d gt).1.elapsedMs = gt.elapsedMs + d := rfl

lemma updateGameTime_fields (d : ℚ) (gt : GameTime) :
    (updateGameTime d gt).1 =
      ⟨gt.elapsedMs + d,
        ⌊(⌊(gt.elapsedMs + d) / MS_PER_GAME_HOUR⌋ : ℚ) / 24⌋ + 1,
        Int.tmod ⌊(gt.elapsedMs + d) / MS_PER_GAME_HOUR⌋ 24,
        ⌊jsFmod ((gt.elapsedMs + d) / MS_PER_GAME_HOUR * 60) 60⌋⟩ := by
  have h60 : (60 : ℚ) ≠ 0 := by norm_num
  simp only [updateGameTime, MINUTES_PER_HOUR, HOURS_PER_DAY, jsIntMod,
    mul_div_cancel_right₀ _ h60]
  norm_num

lemma updateGameTime_projected (d : ℚ) (gt : GameTime)
    (h : 0 ≤ gt.elapsedMs + d) : timeProjected (updateGameTime d gt).1 := by
  have hH : (0 : ℚ) < MS_PER_GAME_HOUR := by
    norm_num [MS_PER_GAME_HOUR, MS_PER_GAME_MINUTE]
  have hdiv : 0 ≤ (gt.elapsedMs + d) / MS_PER_GAME_HOUR := div_nonneg h hH.le
  rw [updateGameTime_fields]
  refine ⟨?_, ?_, rfl⟩
  · exact floor_jsFmod_sixty (mul_nonneg hdiv (by norm_num))
  · exact tmod_of_nonneg (Int.floor_nonneg.mpr hdiv) (by norm_num)

lemma tickTrace_aux :
    ∀ (deltas : List ℚ) (gt : GameTime), 0 ≤ gt.elapsedMs → timeProjected gt →
      (∀ d ∈ deltas, 0 ≤ d) →
      (deltas.scanl (fun g d => (updateGameTime d g).1) gt).Chain'
          (fun a b => a.elapsedMs ≤ b.elapsedMs) ∧
        ∀ x ∈ deltas.scanl (fun g d => (updateGameTime d g).1) gt,
          timeProjected x ∧ 0 ≤ x.elapsedMs
  | [], gt, h0, hp, _ => by
    simp [List.scanl_nil]
    exact ⟨hp, h0⟩
  | d :: ds, gt, h0, hp, hpos => by
    have hd : 0 ≤ d := hpos d (List.mem_cons_self d ds)
    have h0' : 0 ≤ gt.elapsedMs + d := add_nonneg h0 hd
    have hp' : timeProjected (updateGameTime d gt).1 := updateGameTime_projected d gt h0'
    have h0'' : 0 ≤ (updateGameTime d gt).1.elapsedMs := by
      rw [updateGameTime_fst]; exact h0'
    obtain ⟨hchain, hmem⟩ :=
      tickTrace_aux ds ((updateGameTime d gt).1) h0'' hp'
        (fun x hx => hpos x (List.mem_cons_of_mem d hx))
    rw [List.scanl_cons, List.singleton_append]
    constructor
    · rw [List.chain'_cons']
      refine ⟨?_, hchain⟩
      intro y hy
      have hhead : (ds.scanl (fun g d => (updateGameTime d g).1)
          ((updateGameTime d gt).1)).head? = some ((updateGameTime d gt).1) := by
        cases ds <;> simp [List.scanl_cons, List.scanl_nil]
      rw [hhead] at hy
      simp only [Option.mem_def, Option.some_inj] at hy
      subst hy
      rw [updateGameTime_fst]
      exact le_add_of_nonneg_right hd
    · intro x hx
      rcases List.mem_cons.mp hx with hx | hx
      · subst hx; exact ⟨hp, h0⟩
      · exact hmem x hx

/-- C2: along any sequence of tick updates with non-negative simulated
deltas (positive speed multipliers), `elapsedMs` is non-decreasing and the
stored day/hour/minute fields always equal the documented pure projection
of `elapsedMs`. -/
theorem gameTime_monotone_projection (deltas : List ℚ)
    (hpos : ∀ d ∈ deltas, 0 ≤ d) :
    (tickTrace deltas).Chain' (fun a b => a.elapsedMs ≤ b.elapsedMs) ∧
      ∀ gt ∈ tickTrace deltas, timeProjected gt := by
  have hinit : timeProjected initialGameTime := by
    norm_num [timeProjected, initialGameTime, MS_PER_GAME_HOUR, MS_PER_GAME_MINUTE]
  have h := tickTrace_aux deltas initialGameTime (by norm_num [initialGameTime])
    hinit hpos
  exact ⟨h.1, fun gt hgt => (h.2 gt hgt).1⟩

/-- Witness for C2 on a concrete delta sequence. -/
theorem gameTime_monotone_projection_witness :
    (∀ d ∈ ([1000, 120000] : List ℚ), 0 ≤ d) ∧
      (tickTrace [1000, 120000]).Chain' (fun a b => a.elapsedMs ≤ b.elapsedMs) :=
  ⟨by norm_num, (gameTime_monotone_projection [1000, 120000] (by norm_num)).1⟩

lemma updateGameTime_snd (d : ℚ) (gt : GameTime) :
    (updateGameTime d gt).2 =
      (if (updateGameTime d gt).1.hour ≠ gt.hour
        then [GameEmit.hourChanged (updateGameTime d gt).1 gt.hour] else [])
      ++ (if (updateGameTime d gt).1.day ≠ gt.day
        then [GameEmit.dayChanged (updateGameTime d gt).1 gt.day] else []) := rfl

/-- C6 counterexample: a single tick of two simulated hours (120000 ms at
60000 ms per game hour) crosses two hour boundaries but publishes only one
`game:hourChanged` notification, so a depleted energy stock regenerating
10/hour ends the tick at 10, not the 20 that one regeneration per crossed
boundary would give. -/
theorem hourly_regen_crossing_counterexample :
    ⌊(updateGameTime 120000 initialGameTime).1.elapsedMs / MS_PER_GAME_HOUR⌋
        - ⌊initialGameTime.elapsedMs / MS_PER_GAME_HOUR⌋ = 2 ∧
      hourChangedCount (updateGameTime 120000 initialGameTime).2 = 1 ∧
      (gameTick 120000 initialGameTime depletedFleet).2.1.energy.current = 10 ∧
      (onHourChangedFleet (onHourChangedFleet depletedFleet)).energy.current = 20 ∧
      (10 : ℚ) ≠ 20 := by
  have htmod : Int.tmod 2 24 = 2 := by decide
  have h1 : (updateGameTime 120000 initialGameTime).1 = ⟨120000, 1, 2, 0⟩ := by
    rw [updateGameTime_fields]
    norm_num [initialGameTime, MS_PER_GAME_HOUR, MS_PER_GAME_MINUTE, jsFmod, jsTrunc,
      htmod]
  have h2 : (updateGameTime 120000 initialGameTime).2
      = [GameEmit.hourChanged ⟨120000, 1, 2, 0⟩ 0] := by
    rw [updateGameTime_snd, h1]
    norm_num [initialGameTime]
  refine ⟨?_, ?_, ?_, ?_, by norm_num⟩
  · rw [h1]
    norm_num [initialGameTime, MS_PER_GAME_HOUR, MS_PER_GAME_MINUTE]
  · rw [h2]
    simp [hourChangedCount]
  · simp only [gameTick]
    rw [h2]
    norm_num [List.foldl, onHourChangedFleet, regenResource, depletedFleet,
      DEFAULT_FLEET_RESOURCES]
  · norm_num [onHourChangedFleet, regenResource, depletedFleet,
      DEFAULT_FLEET_RESOURCES]

/-- C6 amended: fleet regeneration is applied exactly once per tick in
which the stored hour field changes (at most once per tick however many
hour boundaries the delta crossed), and each application raises a
regenerating, non-overfull resource to
`min (current + regenPerHour) max`. -/
theorem hourly_regen_once_per_hour_change (d : ℚ) (gt : GameTime)
    (res : FleetResources) :
    ((gameTick d gt res).2.1 =
        if (updateGameTime d gt).1.hour ≠ gt.hour then onHourChangedFleet res
        else res) ∧
      (hourChangedCount (updateGameTime d gt).2 =
        if (updateGameTime d gt).1.hour ≠ gt.hour then 1 else 0) ∧
      ∀ r : Resource, 0 < r.regenPerHour → r.current ≤ r.max →
        (regenResource r).current = min (r.current + r.regenPerHour) r.max := by
  refine ⟨?_, ?_, ?_⟩
  · simp only [gameTick]
    rw [updateGameTime_snd]
    by_cases hh : (updateGameTime d gt).1.hour ≠ gt.hour <;>
      by_cases hd : (updateGameTime d gt).1.day ≠ gt.day <;>
      simp [hh, hd, List.foldl]
  · rw [updateGameTime_snd]
    by_cases hh : (updateGameTime d gt).1.hour ≠ gt.hour <;>
      by_cases hd : (updateGameTime d gt).1.day ≠ gt.day <;>
      simp [hh, hd, hourChangedCount]
  · intro r hreg hle
    by_cases hcm : r.current < r.max
    · simp [regenResource, hreg, hcm]
    · have heq : r.current = r.max := le_antisymm hle (not_lt.mp hcm)
      simp only [regenResource, hcm, and_false, if_false]
      rw [heq, min_eq_right (le_add_of_nonneg_right hreg.le)]

/-- Witness for C6's amended theorem at a concrete tick and resource. -/
theorem hourly_regen_once_per_hour_change_witness :
    (0 : ℚ) < 10 ∧ (0 : ℚ) ≤ 1000 ∧
      (regenResource ⟨0, 1000, 10⟩).current = min ((0 : ℚ) + 10) 1000 :=
  ⟨by norm_num, by norm_num,
    (hourly_regen_once_per_hour_change 120000 initialGameTime depletedFleet).2.2
      ⟨0, 1000, 10⟩ (by norm_num) (by norm_num)⟩

lemma triggerLoop_eq (st : ℚ) :
    ∀ (l : List ScenarioEvent) (completed : List String),
      triggerLoop st l completed =
        (l.dropWhile (fun e => decide (e.time ≤ st)),
          (l.takeWhile (fun e => decide (e.time ≤ st))).foldl
            (fun acc e => idSetAdd acc e.id) completed,
          (l.takeWhile (fun e => decide (e.time ≤ st))).map
            (fun e => ScenarioEmit.eventTriggered e st))
  | [], _ => rfl
  | e :: rest, completed => by
    by_cases h : e.time ≤ st
    · simp [triggerLoop, h, List.dropWhile_cons, List.takeWhile_cons,
        triggerLoop_eq st rest]
    · simp [triggerLoop, h, List.dropWhile_cons, List.takeWhile_cons]

lemma isEmpty_dropWhile_eq_all (p : ScenarioEvent → Bool) (l : List ScenarioEvent) :
    (l.dropWhile p).isEmpty = l.all p := by
  rw [Bool.eq_iff_iff, List.isEmpty_iff, List.dropWhile_eq_nil_iff, List.all_eq_true]

lemma handleTick_not_complete (t : GameTime) (sc : Scenario) (st : ScenarioState)
    (pend : List ScenarioEvent) (hnc : st.isComplete = false) :
    handleTick t ⟨some sc, some st, pend⟩ =
      (⟨some sc,
        some { st with
          currentTime := gameTimeToScenarioTime t,
          completedEventIds :=
            (pend.takeWhile (fun e => decide (e.time ≤ gameTimeToScenarioTime t))).foldl
              (fun acc e => idSetAdd acc e.id) st.completedEventIds,
          isComplete :=
            (pend.dropWhile
              (fun e => decide (e.time ≤ gameTimeToScenarioTime t))).isEmpty },
        pend.dropWhile (fun e => decide (e.time ≤ gameTimeToScenarioTime t))⟩,
      (pend.takeWhile (fun e => decide (e.time ≤ gameTimeToScenarioTime t))).map
          (fun e => ScenarioEmit.eventTriggered e (gameTimeToScenarioTime t))
        ++ if (pend.dropWhile
              (fun e => decide (e.time ≤ gameTimeToScenarioTime t))).isEmpty
          then [ScenarioEmit.scenarioComplete sc.id sc.events.length
            (gameTimeToScenarioTime t)]
          else []) := by
  simp only [handleTick, triggerLoop_eq, hnc]
  by_cases h : (pend.dropWhile
      (fun e => decide (e.time ≤ gameTimeToScenarioTime t))).isEmpty <;>
    simp [h, hnc]

lemma handleTick_of_complete (t : GameTime) (sc : Scenario) (st : ScenarioState)
    (pend : List ScenarioEvent) (hc : st.isComplete = true) :
    handleTick t ⟨some sc, some st, pend⟩ = (⟨some sc, some st, pend⟩, []) := by
  simp [handleTick, hc]

lemma loadScenario_fst (s : Scenario) (eng : ScenarioEngine) :
    (loadScenario s eng).1
      = ⟨some s, some ⟨s.id, 0, [], false⟩, sortEventsByTime s.events⟩ := rfl

lemma triggeredEvents_append (a b : List ScenarioEmit) :
    triggeredEvents (a ++ b) = triggeredEvents a ++ triggeredEvents b :=
  List.filterMap_append a b _

lemma triggeredEvents_cons_trig (e : ScenarioEvent) (stv : ℚ)
    (rest : List ScenarioEmit) :
    triggeredEvents (ScenarioEmit.eventTriggered e stv :: rest)
      = e :: triggeredEvents rest := rfl

lemma triggeredEvents_tickEmits (stv : ℚ) (c : Bool)
    (i : String) (n : ℕ) (dur : ℚ) :
    ∀ xs : List ScenarioEvent,
      triggeredEvents
          ((xs.map fun e => ScenarioEmit.eventTriggered e stv)
            ++ if c then [ScenarioEmit.scenarioComplete i n dur] else [])
        = xs
  | [] => by cases c <;> rfl
  | e :: xs => by
    rw [List.map_cons, List.cons_append, triggeredEvents_cons_trig,
      triggeredEvents_tickEmits stv c i n dur xs]

lemma runTicks_triggered_prefix (s : Scenario) :
    ∀ (times : List GameTime) (st : ScenarioState) (pend : List ScenarioEvent),
      ∃ (st' : ScenarioState) (pend' : List ScenarioEvent)
        (emits : List ScenarioEmit),
        runTicks ⟨some s, some st, pend⟩ times = (⟨some s, some st', pend'⟩, emits) ∧
          triggeredEvents emits ++ pend' = pend
  | [], st, pend => ⟨st, pend, [], rfl, by simp [triggeredEvents]⟩
  | t :: ts, st, pend => by
    cases hc : st.isComplete
    · have h1 := handleTick_not_complete t s st pend hc
      obtain ⟨st', pend', emits', heq, hpref⟩ :=
        runTicks_triggered_prefix s ts
          { st with
            currentTime := gameTimeToScenarioTime t,
            completedEventIds :=
              (pend.takeWhile
                (fun e => decide (e.time ≤ gameTimeToScenarioTime t))).foldl
                (fun acc e => idSetAdd acc e.id) st.completedEventIds,
            isComplete :=
              (pend.dropWhile
                (fun e => decide (e.time ≤ gameTimeToScenarioTime t))).isEmpty }
          (pend.dropWhile (fun e => decide (e.time ≤ gameTimeToScenarioTime t)))
      refine ⟨st', pend',
        ((pend.takeWhile (fun e => decide (e.time ≤ gameTimeToScenarioTime t))).map
            (fun e => ScenarioEmit.eventTriggered e (gameTimeToScenarioTime t))
          ++ if (pend.dropWhile
                (fun e => decide (e.time ≤ gameTimeToScenarioTime t))).isEmpty
            then [ScenarioEmit.scenarioComplete s.id s.events.length
              (gameTimeToScenarioTime t)]
            else []) ++ emits', ?_, ?_⟩
      · rw [runTicks, h1]
        simp only [heq]
      · rw [triggeredEvents_append, triggeredEvents_tickEmits, List.append_assoc,
          hpref, List.takeWhile_append_dropWhile]
    · have h1 := handleTick_of_complete t s st pend hc
      obtain ⟨st', pend', emits', heq, hpref⟩ := runTicks_triggered_prefix s ts st pend
      refine ⟨st', pend', [] ++ emits', ?_, ?_⟩
      · rw [runTicks, h1]
        simp only [heq]
      · simpa [triggeredEvents] using hpref

lemma sortEventsByTime_sorted (l : List ScenarioEvent) :
    List.Sorted eventLE (sortEventsByTime l) :=
  List.sorted_insertionSort eventLE l

lemma sortEventsByTime_perm (l : List ScenarioEvent) :
    List.Perm (sortEventsByTime l) l :=
  List.perm_insertionSort eventLE l

lemma takeWhile_eq_filter_of_sorted (st : ℚ) :
    ∀ (l : List ScenarioEvent), List.Sorted eventLE l →
      l.takeWhile (fun e => decide (e.time ≤ st))
        = l.filter (fun e => decide (e.time ≤ st))
  | [], _ => rfl
  | e :: rest, hs => by
    have hs' : List.Sorted eventLE rest := hs.of_cons
    by_cases h : e.time ≤ st
    · simp [List.takeWhile_cons, List.filter_cons, h,
        takeWhile_eq_filter_of_sorted st rest hs']
    · have hrest : ∀ x ∈ rest, ¬x.time ≤ st := fun x hx hc =>
        h (le_trans (List.rel_of_sorted_cons hs x hx) hc)
      simp only [List.takeWhile_cons, List.filter_cons, decide_eq_true_eq, h,
        if_false]
      rw [eq_comm, List.filter_eq_nil_iff]
      intro x hx
      simpa using hrest x hx

lemma filter_timeEq_orderedInsert (q : ℚ) (a : ScenarioEvent)
    (l : List ScenarioEvent) :
    (List.orderedInsert eventLE a l).filter (fun e => decide (e.time = q))
      = if a.time = q then a :: l.filter (fun e => decide (e.time = q))
        else l.filter (fun e => decide (e.time = q)) := by
  rw [List.orderedInsert_eq_take_drop, List.filter_append]
  by_cases h : a.time = q
  · have htake : (l.takeWhile fun b => ¬eventLE a b).filter
        (fun e => decide (e.time = q)) = [] := by
      rw [List.filter_eq_nil_iff]
      intro x hx
      have hlt : ¬eventLE a x := by
        have hmem := List.mem_takeWhile_imp hx
        simpa using hmem
      simp only [decide_eq_true_eq]
      intro hxq
      exact hlt (le_of_eq (h.trans hxq.symm))
    have hl : l.filter (fun e => decide (e.time = q))
        = (l.dropWhile fun b => ¬eventLE a b).filter
            (fun e => decide (e.time = q)) := by
      conv_lhs => rw [← List.takeWhile_append_dropWhile
        (p := fun b => decide ¬eventLE a b) (l := l)]
      rw [List.filter_append, htake, List.nil_append]
    rw [htake, List.filter_cons, if_pos h, List.nil_append, hl]
    simp only [decide_eq_true_eq, h, if_true]
  · rw [List.filter_cons, if_neg h]
    simp only [decide_eq_true_eq, h, if_false]
    rw [← List.filter_append, List.takeWhile_append_dropWhile]

lemma filter_timeEq_sortEvents (q : ℚ) :
    ∀ l : List ScenarioEvent,
      (sortEventsByTime l).filter (fun e => decide (e.time = q))
        = l.filter (fun e => decide (e.time = q))
  | [] => rfl
  | a :: l => by
    have hrec := filter_timeEq_sortEvents q l
    rw [sortEventsByTime, List.insertionSort, filter_timeEq_orderedInsert,
      show List.insertionSort eventLE l = sortEventsByTime l from rfl, hrec,
      List.filter_cons]
    by_cases h : a.time = q
    · simp [h]
    · simp [h]

/-- C1: on a tick whose scenario time has crossed several pending events,
the engine fires exactly the crossed events within that one tick — the
sorted pending list's crossed prefix, in ascending scheduled-time order
with equal-time events kept in authored order (stable tie-break) — and
appends one `scenario:complete` exactly when the last pending event fired;
in particular events at times [0, 1, 1, 5] plus one tick past
scenario-time 5 yield the four triggers in authored order followed by one
`scenario:complete`, a further tick is silent, and splitting the same
playback over two ticks still completes exactly once, immediately after
the fourth trigger. -/
theorem scenario_tick_fires_all_crossed_events (s : Scenario) (t : GameTime) :
    ((handleTick t ((loadScenario s emptyEngine).1)).2 =
        ((sortEventsByTime s.events).takeWhile
            (fun e => decide (e.time ≤ gameTimeToScenarioTime t))).map
          (fun e => ScenarioEmit.eventTriggered e (gameTimeToScenarioTime t))
        ++ if (sortEventsByTime s.events).all
              (fun e => decide (e.time ≤ gameTimeToScenarioTime t))
            then [ScenarioEmit.scenarioComplete s.id s.events.length
              (gameTimeToScenarioTime t)]
            else []) ∧
      List.Sorted eventLE (sortEventsByTime s.events) ∧
      List.Perm (sortEventsByTime s.events) s.events ∧
      List.Perm (triggeredEvents (handleTick t ((loadScenario s emptyEngine).1)).2)
        (s.events.filter (fun e => decide (e.time ≤ gameTimeToScenarioTime t))) ∧
      (∀ q : ℚ,
        (triggeredEvents (handleTick t ((loadScenario s emptyEngine).1)).2).filter
            (fun e => decide (e.time = q))
          = if q ≤ gameTimeToScenarioTime t
            then s.events.filter (fun e => decide (e.time = q)) else []) ∧
      handleTick gtHour6 ((loadScenario scenario4 emptyEngine).1)
        = (⟨some scenario4, some ⟨"s4", 6, ["e0", "e1a", "e1b", "e5"], true⟩, []⟩,
          [ScenarioEmit.eventTriggered ⟨"e0", 0⟩ 6,
            ScenarioEmit.eventTriggered ⟨"e1a", 1⟩ 6,
            ScenarioEmit.eventTriggered ⟨"e1b", 1⟩ 6,
            ScenarioEmit.eventTriggered ⟨"e5", 5⟩ 6,
            ScenarioEmit.scenarioComplete "s4" 4 6]) ∧
      (handleTick gtHour7 (handleTick gtHour6
          ((loadScenario scenario4 emptyEngine).1)).1).2 = [] ∧
      (runTicks ((loadScenario scenario4 emptyEngine).1) [gtHour1, gtHour6]).2
        = [ScenarioEmit.eventTriggered ⟨"e0", 0⟩ 1,
            ScenarioEmit.eventTriggered ⟨"e1a", 1⟩ 1,
            ScenarioEmit.eventTriggered ⟨"e1b", 1⟩ 1,
            ScenarioEmit.eventTriggered ⟨"e5", 5⟩ 6,
            ScenarioEmit.scenarioComplete "s4" 4 6] := by
  have hmain := handleTick_not_complete t s ⟨s.id, 0, [], false⟩
    (sortEventsByTime s.events) rfl
  have hout : (handleTick t ((loadScenario s emptyEngine).1)).2
      = ((sortEventsByTime s.events).takeWhile
          (fun e => decide (e.time ≤ gameTimeToScenarioTime t))).map
          (fun e => ScenarioEmit.eventTriggered e (gameTimeToScenarioTime t))
        ++ if (sortEventsByTime s.events).all
              (fun e => decide (e.time ≤ gameTimeToScenarioTime t))
            then [ScenarioEmit.scenarioComplete s.id s.events.length
              (gameTimeToScenarioTime t)]
            else [] := by
    rw [loadScenario_fst, hmain, ← isEmpty_dropWhile_eq_all]
  have htrig : triggeredEvents (handleTick t ((loadScenario s emptyEngine).1)).2
      = (sortEventsByTime s.events).takeWhile
          (fun e => decide (e.time ≤ gameTimeToScenarioTime t)) := by
    rw [hout]
    exact triggeredEvents_tickEmits _ _ _ _ _ _
  have hsorted := sortEventsByTime_sorted s.events
  have htf := takeWhile_eq_filter_of_sorted (gameTimeToScenarioTime t)
    (sortEventsByTime s.events) hsorted
  have hsort4 : sortEventsByTime scenario4.events = scenario4.events := by
    norm_num [scenario4, sortEventsByTime, List.insertionSort, List.orderedInsert,
      eventLE]
  have hst6 : gameTimeToScenarioTime gtHour6 = 6 := by
    norm_num [gameTimeToScenarioTime, gtHour6]
  have hst1 : gameTimeToScenarioTime gtHour1 = 1 := by
    norm_num [gameTimeToScenarioTime, gtHour1]
  have htickA : handleTick gtHour6 ((loadScenario scenario4 emptyEngine).1)
      = (⟨some scenario4, some ⟨"s4", 6, ["e0", "e1a", "e1b", "e5"], true⟩, []⟩,
        [ScenarioEmit.eventTriggered ⟨"e0", 0⟩ 6,
          ScenarioEmit.eventTriggered ⟨"e1a", 1⟩ 6,
          ScenarioEmit.eventTriggered ⟨"e1b", 1⟩ 6,
          ScenarioEmit.eventTriggered ⟨"e5", 5⟩ 6,
          ScenarioEmit.scenarioComplete "s4" 4 6]) := by
    rw [loadScenario_fst, handleTick_not_complete gtHour6 scenario4
      ⟨scenario4.id, 0, [], false⟩ (sortEventsByTime scenario4.events) rfl,
      hsort4, hst6]
    norm_num [scenario4, List.takeWhile_cons, List.dropWhile_cons, idSetAdd]
    decide
  have htickB : handleTick gtHour1 ((loadScenario scenario4 emptyEngine).1)
      = (⟨some scenario4, some ⟨"s4", 1, ["e0", "e1a", "e1b"], false⟩,
          [⟨"e5", 5⟩]⟩,
        [ScenarioEmit.eventTriggered ⟨"e0", 0⟩ 1,
          ScenarioEmit.eventTriggered ⟨"e1a", 1⟩ 1,
          ScenarioEmit.eventTriggered ⟨"e1b", 1⟩ 1]) := by
    rw [loadScenario_fst, handleTick_not_complete gtHour1 scenario4
      ⟨scenario4.id, 0, [], false⟩ (sortEventsByTime scenario4.events) rfl,
      hsort4, hst1]
    norm_num [scenario4, List.takeWhile_cons, List.dropWhile_cons, idSetAdd]
    decide
  have htickC : handleTick gtHour6
      (⟨some scenario4, some ⟨"s4", 1, ["e0", "e1a", "e1b"], false⟩,
        [⟨"e5", 5⟩]⟩ : ScenarioEngine)
      = (⟨some scenario4,
          some ⟨"s4", 6, ["e0", "e1a", "e1b", "e5"], true⟩, []⟩,
        [ScenarioEmit.eventTriggered ⟨"e5", 5⟩ 6,
          ScenarioEmit.scenarioComplete "s4" 4 6]) := by
    rw [handleTick_not_complete gtHour6 scenario4
      ⟨"s4", 1, ["e0", "e1a", "e1b"], false⟩ [⟨"e5", 5⟩] rfl, hst6]
    norm_num [scenario4, List.takeWhile_cons, List.dropWhile_cons, idSetAdd]
    decide
  refine ⟨hout, hsorted, sortEventsByTime_perm s.events, ?_, ?_, htickA, ?_, ?_⟩
  · rw [htrig, htf]
    exact (sortEventsByTime_perm s.events).filter _
  · intro q
    by_cases hq : q ≤ gameTimeToScenarioTime t
    · rw [if_pos hq, htrig, htf, List.filter_comm, filter_timeEq_sortEvents,
        List.filter_eq_self.mpr]
      intro a ha
      have haq : a.time = q := by simpa using (List.mem_filter.mp ha).2
      simp [haq, hq]
    · rw [if_neg hq, htrig, List.filter_eq_nil_iff]
      intro x hx
      have hxle := List.mem_takeWhile_imp hx
      simp only [decide_eq_true_eq] at hxle ⊢
      intro hxq
      exact hq (hxq ▸ hxle)
  · rw [htickA, handleTick_of_complete gtHour7 scenario4
      ⟨"s4", 6, ["e0", "e1a", "e1b", "e5"], true⟩ [] rfl]
  · rw [runTicks, htickB]
    simp only [runTicks, htickC]
    rfl

/-- C3: over one scenario load and any sequence of ticks, no event id is
ever triggered twice: the `scenario:eventTriggered` id stream is
duplicate-free whenever the authored event ids are. -/
theorem event_ids_at_most_once (s : Scenario) (times : List GameTime)
    (hids : (s.events.map ScenarioEvent.id).Nodup) :
    ((triggeredEvents
        (runTicks ((loadScenario s emptyEngine).1) times).2).map
      ScenarioEvent.id).Nodup := by
  rw [loadScenario_fst]
  obtain ⟨st', pend', emits, heq, hpref⟩ :=
    runTicks_triggered_prefix s times ⟨s.id, 0, [], false⟩
      (sortEventsByTime s.events)
  rw [heq]
  have hsub : (triggeredEvents emits).Sublist (sortEventsByTime s.events) := by
    rw [← hpref]
    exact List.sublist_append_left _ _
  have hnd : ((sortEventsByTime s.events).map ScenarioEvent.id).Nodup :=
    (((sortEventsByTime_perm s.events).map ScenarioEvent.id).nodup_iff).mpr hids
  exact hnd.sublist (hsub.map ScenarioEvent.id)

/-- Witness for C3 on the four-event scenario played over two ticks. -/
theorem event_ids_at_most_once_witness :
    (scenario4.events.map ScenarioEvent.id).Nodup ∧
      ((triggeredEvents
          (runTicks ((loadScenario scenario4 emptyEngine).1)
            [gtHour1, gtHour6]).2).map
        ScenarioEvent.id).Nodup :=
  ⟨by simp [scenario4], event_ids_at_most_once scenario4 [gtHour1, gtHour6]
    (by simp [scenario4])⟩

/-- C10: loading a scenario with no events makes the very first tick
publish `scenario:complete` (with `totalEvents` 0) and mark the engine
complete, with no `scenario:eventTriggered`, and every later tick is
silent. -/
theorem empty_scenario_first_tick_completes (s : Scenario) (hempty : s.events = [])
    (t t' : GameTime) :
    (handleTick t ((loadScenario s emptyEngine).1)).2
        = [ScenarioEmit.scenarioComplete s.id 0 (gameTimeToScenarioTime t)] ∧
      triggeredEvents (handleTick t ((loadScenario s emptyEngine).1)).2 = [] ∧
      (handleTick t ((loadScenario s emptyEngine).1)).1
        = ⟨some s, some ⟨s.id, gameTimeToScenarioTime t, [], true⟩, []⟩ ∧
      (handleTick t' (handleTick t ((loadScenario s emptyEngine).1)).1).2
        = [] := by
  have hsort : sortEventsByTime s.events = [] := by rw [hempty]; rfl
  have h1 := handleTick_not_complete t s ⟨s.id, 0, [], false⟩
    (sortEventsByTime s.events) rfl
  rw [hsort] at h1
  simp only [List.takeWhile_nil, List.dropWhile_nil, List.foldl_nil, List.map_nil,
    List.isEmpty_nil, if_true, List.nil_append, hempty, List.length_nil] at h1
  refine ⟨?_, ?_, ?_, ?_⟩
  · rw [loadScenario_fst, hsort, h1]
  · rw [loadScenario_fst, hsort, h1]
    rfl
  · rw [loadScenario_fst, hsort, h1]
  · rw [loadScenario_fst, hsort, h1,
      handleTick_of_complete t' s ⟨s.id, gameTimeToScenarioTime t, [], true⟩ [] rfl]

/-- Witness for C10 with a concrete empty scenario. -/
theorem empty_scenario_first_tick_completes_witness :
    scenario0.events = [] ∧
      (handleTick gtHour1 ((loadScenario scenario0 emptyEngine).1)).2
        = [ScenarioEmit.scenarioComplete "s0" 0
            (gameTimeToScenarioTime gtHour1)] :=
  ⟨rfl, (empty_scenario_first_tick_completes scenario0 rfl gtHour1 gtHour1).1⟩

end Earth3D
